import Mathlib

/-!
Verification of the movemate-visual photo-to-inventory pipeline.

The definitions below are a shallow embedding of the TypeScript source:
  - supabase/functions/analyze-inventory/index.ts  (edge function: room
    detection pass and per-photo item extraction, including its tolerant
    JSON extraction of the model output),
  - src/pages/Upload.tsx                           (two-pass orchestration loop),
  - src/pages/SharedInventory.tsx                  (shared-link page: totals,
    safety factor, item mutations under an access token),
  - src/pages/Review.tsx                           (owner review page totals
    and its mock data),
  - supabase/functions/generate-inventory-pdf/index.ts (report totals).

JavaScript numbers are modelled as rationals; JSON values as an inductive
type; the external vision call as an oracle argument.
-/

set_option maxRecDepth 8000

namespace MoveMate

/-- JSON values as produced by the model responses and consumed by the
edge functions.  Numbers are modelled as rationals. -/
inductive JsonValue where
  | null
  | bool (b : Bool)
  | num (q : ℚ)
  | str (s : String)
  | arr (elems : List JsonValue)
  | obj (fields : List (String × JsonValue))

/-- Field access on a JS object: the last binding of a key wins, which
models object-literal spread overriding earlier keys. -/
def JsonValue.getField : JsonValue → String → Option JsonValue
  | JsonValue.obj fields, key => (fields.reverse.find? (fun p => p.1 == key)).map (fun p => p.2)
  | _, _ => none

/-- Extract the element list of a JSON array. -/
def JsonValue.getArr : JsonValue → Option (List JsonValue)
  | JsonValue.arr xs => some xs
  | _ => none

/-- Extract the string of a JSON string value. -/
def JsonValue.getStr : JsonValue → Option String
  | JsonValue.str s => some s
  | _ => none

/-- Extract the number of a JSON numeric value. -/
def JsonValue.getNum : JsonValue → Option ℚ
  | JsonValue.num q => some q
  | _ => none

/-- ASCII whitespace recognised by the JSON grammar and by String.trim. -/
def isJsonWs (c : Char) : Bool :=
  c = ' ' || c = '\t' || c = '\n' || c = '\r'

/-- Drop leading and trailing whitespace from a character list. -/
def jsTrimList (l : List Char) : List Char :=
  ((l.dropWhile isJsonWs).reverse.dropWhile isJsonWs).reverse

/-- Model of the JS String.prototype.trim primitive (ASCII whitespace). -/
def jsTrim (s : String) : String := String.mk (jsTrimList s.data)

/-- Value of a hexadecimal digit, if any. -/
def hexVal (c : Char) : Option Nat :=
  if '0' ≤ c ∧ c ≤ '9' then some (c.toNat - 48)
  else if 'a' ≤ c ∧ c ≤ 'f' then some (c.toNat - 87)
  else if 'A' ≤ c ∧ c ≤ 'F' then some (c.toNat - 55)
  else none

/-- Single-character JSON string escapes. -/
def jsonUnescape (c : Char) : Option Char :=
  if c = '"' then some '"'
  else if c = '\\' then some '\\'
  else if c = '/' then some '/'
  else if c = 'b' then some '\x08'
  else if c = 'f' then some '\x0C'
  else if c = 'n' then some '\n'
  else if c = 'r' then some '\r'
  else if c = 't' then some '\t'
  else none

/-- Parse the body of a JSON string after the opening quote; returns the
decoded characters and the rest of the input after the closing quote. -/
def parseStringBody : List Char → Option (List Char × List Char)
  | [] => none
  | '"' :: rest => some ([], rest)
  | '\\' :: 'u' :: h1 :: h2 :: h3 :: h4 :: rest =>
    match hexVal h1, hexVal h2, hexVal h3, hexVal h4 with
    | some a, some b, some c, some d =>
      (parseStringBody rest).map (fun p => (Char.ofNat (((a * 16 + b) * 16 + c) * 16 + d) :: p.1, p.2))
    | _, _, _, _ => none
  | '\\' :: e :: rest =>
    match jsonUnescape e with
    | some c => (parseStringBody rest).map (fun p => (c :: p.1, p.2))
    | none => none
  | c :: rest => (parseStringBody rest).map (fun p => (c :: p.1, p.2))

/-- Decimal digit test. -/
def isDigitCh (c : Char) : Bool := '0' ≤ c && c ≤ '9'

/-- Numeric value of a digit string. -/
def digitsToNat (ds : List Char) : Nat :=
  ds.foldl (fun n c => 10 * n + (c.toNat - 48)) 0

/-- Parse an optional fractional part of a JSON number. -/
def parseFracPart : List Char → Option (List Char × List Char)
  | '.' :: rest =>
    let ds := rest.takeWhile isDigitCh
    if ds.isEmpty then none else some (ds, rest.dropWhile isDigitCh)
  | cs => some ([], cs)

/-- Parse an optional exponent part of a JSON number. -/
def parseExpPart : List Char → Option (Int × List Char)
  | [] => some (0, [])
  | c :: rest =>
    if c = 'e' || c = 'E' then
      let (sgn, rest1) : Int × List Char :=
        match rest with
        | '+' :: r => (1, r)
        | '-' :: r => (-1, r)
        | r => (1, r)
      let ds := rest1.takeWhile isDigitCh
      if ds.isEmpty then none
      else some (sgn * (digitsToNat ds : Int), rest1.dropWhile isDigitCh)
    else some (0, c :: rest)

/-- Parse a JSON number from the given position. -/
def parseNumberFrom (cs : List Char) : Option (ℚ × List Char) :=
  let (neg, cs1) : Bool × List Char :=
    match cs with
    | '-' :: rest => (true, rest)
    | _ => (false, cs)
  let intDs := cs1.takeWhile isDigitCh
  if intDs.isEmpty then none else
  match parseFracPart (cs1.dropWhile isDigitCh) with
  | none => none
  | some (fracDs, cs3) =>
    match parseExpPart cs3 with
    | none => none
    | some (e, cs4) =>
      let mant : ℚ := (digitsToNat (intDs ++ fracDs) : ℚ)
      let scaled : ℚ := mant * (10 : ℚ) ^ (e - (fracDs.length : Int))
      some ((if neg then -scaled else scaled), cs4)

/-- Match a literal keyword. -/
def expectLit (lit : List Char) (cs : List Char) : Option (List Char) :=
  if lit.isPrefixOf cs then some (cs.drop lit.length) else none

mutual

/-- Model of the JSON.parse grammar: parse one JSON value (leading
whitespace allowed), returning the value and the remaining input.  The
fuel argument bounds recursion depth. -/
def parseJsonValue : Nat → List Char → Option (JsonValue × List Char)
  | 0, _ => none
  | fuel + 1, cs =>
    match cs.dropWhile isJsonWs with
    | [] => none
    | c :: rest =>
      if c = '[' then
        (parseJsonArrayBody fuel rest).map (fun p => (JsonValue.arr p.1, p.2))
      else if c = '{' then
        (parseJsonObjectBody fuel rest).map (fun p => (JsonValue.obj p.1, p.2))
      else if c = '"' then
        (parseStringBody rest).map (fun p => (JsonValue.str (String.mk p.1), p.2))
      else if c = 't' then
        (expectLit ['r', 'u', 'e'] rest).map (fun r => (JsonValue.bool true, r))
      else if c = 'f' then
        (expectLit ['a', 'l', 's', 'e'] rest).map (fun r => (JsonValue.bool false, r))
      else if c = 'n' then
        (expectLit ['u', 'l', 'l'] rest).map (fun r => (JsonValue.null, r))
      else
        (parseNumberFrom (c :: rest)).map (fun p => (JsonValue.num p.1, p.2))

/-- Parse the elements of a JSON array after the opening bracket. -/
def parseJsonArrayBody : Nat → List Char → Option (List JsonValue × List Char)
  | 0, _ => none
  | fuel + 1, cs =>
    match cs.dropWhile isJsonWs with
    | ']' :: rest => some ([], rest)
    | _ =>
      match parseJsonValue fuel cs with
      | none => none
      | some (v, cs1) =>
        match parseJsonArrayRest fuel cs1 with
        | none => none
        | some (vs, cs2) => some (v :: vs, cs2)

/-- Parse the continuation of a JSON array after an element. -/
def parseJsonArrayRest : Nat → List Char → Option (List JsonValue × List Char)
  | 0, _ => none
  | fuel + 1, cs =>
    match cs.dropWhile isJsonWs with
    | ']' :: rest => some ([], rest)
    | ',' :: rest =>
      match parseJsonValue fuel rest with
      | none => none
      | some (v, cs1) =>
        match parseJsonArrayRest fuel cs1 with
        | none => none
        | some (vs, cs2) => some (v :: vs, cs2)
    | _ => none

/-- Parse the members of a JSON object after the opening brace. -/
def parseJsonObjectBody : Nat → List Char → Option (List (String × JsonValue) × List Char)
  | 0, _ => none
  | fuel + 1, cs =>
    match cs.dropWhile isJsonWs with
    | '}' :: rest => some ([], rest)
    | _ =>
      match parseJsonMember fuel cs with
      | none => none
      | some (kv, cs1) =>
        match parseJsonObjectRest fuel cs1 with
        | none => none
        | some (kvs, cs2) => some (kv :: kvs, cs2)

/-- Parse the continuation of a JSON object after a member. -/
def parseJsonObjectRest : Nat → List Char → Option (List (String × JsonValue) × List Char)
  | 0, _ => none
  | fuel + 1, cs =>
    match cs.dropWhile isJsonWs with
    | '}' :: rest => some ([], rest)
    | ',' :: rest =>
      match parseJsonMember fuel rest with
      | none => none
      | some (kv, cs1) =>
        match parseJsonObjectRest fuel cs1 with
        | none => none
        | some (kvs, cs2) => some (kv :: kvs, cs2)
    | _ => none

/-- Parse one key/value member of a JSON object. -/
def parseJsonMember : Nat → List Char → Option ((String × JsonValue) × List Char)
  | 0, _ => none
  | fuel + 1, cs =>
    match cs.dropWhile isJsonWs with
    | '"' :: rest =>
      match parseStringBody rest with
      | none => none
      | some (key, cs1) =>
        match cs1.dropWhile isJsonWs with
        | ':' :: cs2 =>
          match parseJsonValue fuel cs2 with
          | none => none
          | some (v, cs3) => some ((String.mk key, v), cs3)
        | _ => none
    | _ => none

end

/-- Model of the JS JSON.parse primitive: parse a complete JSON document,
rejecting trailing garbage.  The fuel is ample for any input of this
length. -/
def jsonParse (s : String) : Option JsonValue :=
  match parseJsonValue (2 * (s.data.length + 1)) s.data with
  | some (v, rest) => if (rest.dropWhile isJsonWs).isEmpty then some v else none
  | none => none

/-- Split a character list around the first occurrence of `sep`,
returning the part before it and the part after it. -/
def findSubstringSplit (sep : List Char) : List Char → Option (List Char × List Char)
  | [] => if sep.isEmpty then some ([], []) else none
  | c :: rest =>
    if sep.isPrefixOf (c :: rest) then some ([], (c :: rest).drop sep.length)
    else (findSubstringSplit sep rest).map (fun p => (c :: p.1, p.2))

/-- Embeds the markdown code-fence regex of analyze-inventory: the
(trimmed) text between the first occurrence of three backticks plus
`json` and the next three backticks, if both fences are present.  The
source trims the capture immediately afterwards, so the surrounding
whitespace groups of the regex are absorbed into the trim. -/
def codeBlockCapture (s : String) : Option String :=
  match findSubstringSplit ("```json".data) s.data with
  | none => none
  | some (_, afterOpen) =>
    match findSubstringSplit ("```".data) afterOpen with
    | none => none
    | some (inner, _) => some (String.mk (jsTrimList inner))

/-- Embeds `blockContent.match(...)` of strategy 1: the span from the
first opening bracket to the first closing bracket after it (lazy
regex), if both exist. -/
def arrayMatchFirst (blockContent : String) : Option String :=
  match blockContent.data.dropWhile (fun c => c != '[') with
  | [] => none
  | c :: rest =>
    if rest.any (fun d => d == ']') then
      some (String.mk (c :: (rest.takeWhile (fun d => d != ']') ++ [']'])))
    else none

/-- Prepend a character to the span of a scan result. -/
def consFst (c : Char) : Option (List Char) × Int → Option (List Char) × Int
  | (o, d) => (o.map (fun l => c :: l), d)

/-- Embeds the depth-tracking loop of strategy 2 of the item JSON
extraction (analyze-inventory lines 211-245): scans from the first
bracket, tracking string/escape state and bracket/brace depth, breaking
at the closing bracket that returns the depth to zero.  Returns the
consumed span on break, and otherwise the final depth. -/
def depthScanArray : List Char → Int → Bool → Bool → Option (List Char) × Int
  | [], depth, _, _ => (none, depth)
  | c :: rest, depth, inString, escaped =>
    if escaped then consFst c (depthScanArray rest depth inString false)
    else if c = '\\' then consFst c (depthScanArray rest depth inString true)
    else if c = '"' then consFst c (depthScanArray rest depth (!inString) escaped)
    else if !inString then
      if c = '[' || c = '{' then consFst c (depthScanArray rest (depth + 1) inString escaped)
      else if c = ']' || c = '}' then
        if depth - 1 == 0 && c == ']' then (some [c], depth - 1)
        else consFst c (depthScanArray rest (depth - 1) inString escaped)
      else consFst c (depthScanArray rest depth inString escaped)
    else consFst c (depthScanArray rest depth inString escaped)

/-- Strategy 2 of the item JSON extraction: find a bracketed JSON array
anywhere in the content by depth tracking.  When the loop ends without a
break but with depth zero, the source takes the one-character substring
at the start position. -/
def strategy2Extract (analysisContent : String) : Option String :=
  match analysisContent.data.dropWhile (fun c => c != '[') with
  | [] => none
  | c :: rest =>
    match depthScanArray (c :: rest) 0 false false with
    | (some span, _) => some (String.mk span)
    | (none, d) => if d == 0 then some (String.mk [c]) else none

/-- The combined JSON-array extraction of the item-analysis handler:
strategy 1 (code fence, then bracket match inside it), falling back to
strategy 2 on the whole content. -/
def extractJsonArrayContent (analysisContent : String) : Option String :=
  let fromBlock :=
    match codeBlockCapture analysisContent with
    | some blockContent => arrayMatchFirst blockContent
    | none => none
  match fromBlock with
  | some jsonContent => some jsonContent
  | none => strategy2Extract analysisContent

/-- The item-analysis parse stage: extract a JSON array from the model
text and parse it; every failure is caught and replaced by the empty
array (analyze-inventory lines 265-272). -/
def parseInventoryItems (analysisContent : String) : JsonValue :=
  match extractJsonArrayContent analysisContent with
  | none => JsonValue.arr []
  | some jsonContent =>
    match jsonParse (jsTrim jsonContent) with
    | none => JsonValue.arr []
    | some v => v

/-- Embeds the depth-tracking loop of the room-detection JSON
extraction (lines 451-480): like the array scan but tracking only
braces and breaking at the brace that returns the depth to zero. -/
def depthScanObject : List Char → Int → Bool → Bool → Option (List Char) × Int
  | [], depth, _, _ => (none, depth)
  | c :: rest, depth, inString, escaped =>
    if escaped then consFst c (depthScanObject rest depth inString false)
    else if c = '\\' then consFst c (depthScanObject rest depth inString true)
    else if c = '"' then consFst c (depthScanObject rest depth (!inString) escaped)
    else if !inString then
      if c = '{' then consFst c (depthScanObject rest (depth + 1) inString escaped)
      else if c = '}' then
        if depth - 1 == 0 then (some [c], depth - 1)
        else consFst c (depthScanObject rest (depth - 1) inString escaped)
      else consFst c (depthScanObject rest depth inString escaped)
    else consFst c (depthScanObject rest depth inString escaped)

/-- The room-detection JSON extraction: the code-fence capture if a
fence pair is present (an empty capture is falsy and yields no
content), otherwise a brace-matched object span. -/
def roomExtract (analysisContent : String) : Option String :=
  match codeBlockCapture analysisContent with
  | some jsonContent => if jsonContent = "" then none else some jsonContent
  | none =>
    match analysisContent.data.dropWhile (fun c => c != '{') with
    | [] => none
    | c :: rest =>
      match depthScanObject (c :: rest) 0 false false with
      | (some span, _) => some (String.mk span)
      | (none, d) => if d == 0 then some (String.mk [c]) else none

/-- The room-detection parse stage: extraction followed by JSON.parse;
`none` is the case in which the source's try block throws and the catch
installs the fallback mapping. -/
def roomParsedPayload (content : String) : Option JsonValue :=
  match roomExtract content with
  | none => none
  | some jsonContent => jsonParse jsonContent

/-- Outcome of the external OpenAI vision call, as distinguished by the
source: a non-ok HTTP response (thrown), a response without the
expected choices/message shape (thrown), or the message content. -/
inductive VisionResult where
  | apiError (status : Nat) (body : String)
  | badShape
  | ok (content : String)

/-- An edge-function HTTP response: a 200 JSON body, or the JSON error
response produced by the top-level catch (status 500). -/
inductive Response where
  | okJson (body : JsonValue)
  | err (status : Nat) (message : String)

/-- The key `image<i>` used by the room mapping objects. -/
def imageKey (i : Nat) : String := s!"image{i}"

/-- The fixed room list installed by the room-detection parse-failure
fallback (analyze-inventory lines 503-506). -/
def roomsDetectedFallback : List String := ["Living Room", "Kitchen", "Bedroom", "Bathroom"]

/-- The fallback room mapping for an n-image batch: the fixed four-room
list, and every image assigned `["Living Room"]` (lines 501-512). -/
def fallbackRoomMapping (n : Nat) : JsonValue :=
  JsonValue.obj
    [("rooms_detected", JsonValue.arr (roomsDetectedFallback.map JsonValue.str)),
     ("image_room_mapping", JsonValue.obj
        ((List.range n).map (fun i => (imageKey (i + 1), JsonValue.arr [JsonValue.str "Living Room"]))))]

/-- The room-detection handler (analyze-inventory lines 310-519):
missing or empty image list throws (caught at the top level as a 500
response); vision-call failures throw likewise; with content in hand,
an unparseable payload installs the fallback mapping and any parsed
JSON value is returned as the mapping. -/
def handleRoomDetection (images : Option (List String)) (vision : VisionResult) : Response :=
  match images with
  | none => Response.err 500 "No images provided for room detection"
  | some imgs =>
    if imgs.length = 0 then Response.err 500 "No images provided for room detection"
    else
      match vision with
      | VisionResult.apiError status body => Response.err 500 (s!"OpenAI API error: {status} - {body}")
      | VisionResult.badShape => Response.err 500 "Invalid response from OpenAI API"
      | VisionResult.ok analysisContent =>
        match roomParsedPayload analysisContent with
        | none => Response.okJson (fallbackRoomMapping imgs.length)
        | some roomMapping => Response.okJson roomMapping

/-- The per-item id string `item_<image>_<index>`. -/
def itemId (imageNumber index : Nat) : String := s!"item_{imageNumber}_{index}"

/-- One step of the itemsWithIds mapping: spread the parsed item into
an object carrying an id and the image number.  A JS spread of the item
after the fixed keys lets item fields override them, which the
last-binding-wins `getField` reflects; spreading a non-object
contributes no fields. -/
def itemWithId (imageNumber index : Nat) (item : JsonValue) : JsonValue :=
  let baseFields := [("id", JsonValue.str (itemId imageNumber index)),
                     ("found_in_image", JsonValue.num (imageNumber : ℚ))]
  match item with
  | JsonValue.obj fields => JsonValue.obj (baseFields ++ fields)
  | _ => JsonValue.obj baseFields

/-- The indexed map underlying itemsWithIds. -/
def itemsWithIdsFrom (imageNumber : Nat) : Nat → List JsonValue → List JsonValue
  | _, [] => []
  | index, item :: rest =>
    itemWithId imageNumber index item :: itemsWithIdsFrom imageNumber (index + 1) rest

/-- Embeds the itemsWithIds mapping (analyze-inventory lines 280-284):
`inventoryItems.map((item, index) => ({id: item_<n>_<index+1>,
found_in_image: n, ...item}))`. -/
def itemsWithIds (imageNumber : Nat) (inventoryItems : List JsonValue) : List JsonValue :=
  itemsWithIdsFrom imageNumber 1 inventoryItems

/-- The 200 response body of the item-analysis handler (lines 288-294). -/
def itemAnalysisOkBody (imageNumber : Nat) (items : List JsonValue) : JsonValue :=
  JsonValue.obj [("items", JsonValue.arr items),
                 ("itemCount", JsonValue.num (items.length : ℚ)),
                 ("imageNumber", JsonValue.num (imageNumber : ℚ))]

/-- The item-analysis handler after the image check: vision-call
failures throw (500); otherwise the parse stage runs and a non-array
result would throw, while an array is id-tagged and returned. -/
def itemAnalysis (imageNumber : Nat) (vision : VisionResult) : Response :=
  match vision with
  | VisionResult.apiError status body => Response.err 500 (s!"OpenAI API error: {status} - {body}")
  | VisionResult.badShape => Response.err 500 "Invalid response from OpenAI API"
  | VisionResult.ok analysisContent =>
    match parseInventoryItems analysisContent with
    | JsonValue.arr inventoryItems =>
      Response.okJson (itemAnalysisOkBody imageNumber (itemsWithIds imageNumber inventoryItems))
    | _ => Response.err 500 "AI response is not a valid array"

/-- The request body of the analyze-inventory function (line 27), with
the source's defaults.  existingItems and roomMappings only shape the
prompt sent to the external model and do not otherwise steer the
handler. -/
structure RequestBody where
  mode : String := "item-analysis"
  images : Option (List String) := none
  image : Option String := none
  imageNumber : Nat := 0
  existingItems : List JsonValue := []
  roomMappings : List (String × List String) := []

/-- The rooms recorded for the current image (line 44):
`roomMappings[image<n>] || []`. -/
def currentRooms (roomMappings : List (String × List String)) (imageNumber : Nat) : List String :=
  ((roomMappings.find? (fun p => p.1 == imageKey imageNumber)).map (fun p => p.2)).getD []

/-- The serve dispatcher of analyze-inventory: room-detection mode goes
to its handler; otherwise a missing or empty image throws (500) and the
item-analysis path runs. -/
def serveAnalyze (body : RequestBody) (vision : VisionResult) : Response :=
  if body.mode = "room-detection" then
    handleRoomDetection body.images vision
  else
    match body.image with
    | none => Response.err 500 "Image is required"
    | some image =>
      if image = "" then Response.err 500 "Image is required"
      else itemAnalysis body.imageNumber vision

/-- The pass-2 aggregation loop of Upload.tsx handleAnalyze (lines
242-293): photos are processed in order; each call receives the current
ledger (`existingItems: allItems`); a successful call appends its items
and any error leaves the ledger unchanged and continues.  The external
per-photo call is the oracle argument. -/
def handleAnalyzeItemLoop
    (call : Nat → List JsonValue → Except String (List JsonValue)) : Nat → List JsonValue
  | 0 => []
  | k + 1 =>
    let allItems := handleAnalyzeItemLoop call k
    match call (k + 1) allItems with
    | Except.ok items => allItems ++ items
    | Except.error _ => allItems

/-- An inventory item row as displayed and persisted (quantities and
measures modelled as rationals; the optional fields mirror the
TypeScript interface). -/
structure InventoryItem where
  id : String := ""
  name : String := ""
  quantity : ℚ := 1
  volume : ℚ := 0
  weight : ℚ := 0
  found_in_image : Option Nat := none
  room : Option String := none
  is_going : Option Bool := none
deriving DecidableEq

/-- SharedInventory.tsx line 288: multiply a value by one plus the
safety factor.  generate-inventory-pdf line 86 is identical. -/
def applyLoadingSafetyFactor (safetyFactor value : ℚ) : ℚ := value * (1 + safetyFactor)

/-- SharedInventory.tsx line 290: the displayed volume total, summed
over every item (no is_going filter), with the safety factor applied. -/
def sharedTotalVolume (items : List InventoryItem) (safetyFactor : ℚ) : ℚ :=
  applyLoadingSafetyFactor safetyFactor
    (items.foldl (fun sum item => sum + item.volume * item.quantity) 0)

/-- SharedInventory.tsx line 291: the displayed weight total, summed
over every item, with the safety factor applied. -/
def sharedTotalWeight (items : List InventoryItem) (safetyFactor : ℚ) : ℚ :=
  applyLoadingSafetyFactor safetyFactor
    (items.foldl (fun sum item => sum + item.weight * item.quantity) 0)

/-- SharedInventory.tsx line 292: the displayed item count, the sum of
quantities over every item. -/
def sharedTotalItems (items : List InventoryItem) : ℚ :=
  items.foldl (fun sum item => sum + item.quantity) 0

/-- generate-inventory-pdf line 87: the report's item count is the
number of rows. -/
def pdfTotalItems (items : List InventoryItem) : Nat := items.length

/-- generate-inventory-pdf line 88: the report volume total, over every
item, with the safety factor applied. -/
def pdfTotalVolume (items : List InventoryItem) (safetyFactor : ℚ) : ℚ :=
  applyLoadingSafetyFactor safetyFactor
    (items.foldl (fun sum item => sum + item.volume * item.quantity) 0)

/-- generate-inventory-pdf line 89: the report weight total. -/
def pdfTotalWeight (items : List InventoryItem) (safetyFactor : ℚ) : ℚ :=
  applyLoadingSafetyFactor safetyFactor
    (items.foldl (fun sum item => sum + item.weight * item.quantity) 0)

/-- Review.tsx line 170: the items with `is_going !== false`. -/
def goingItems (items : List InventoryItem) : List InventoryItem :=
  items.filter (fun item => !(item.is_going == some false))

/-- Review.tsx line 171: volume total over going items, no safety
factor. -/
def reviewTotalVolume (items : List InventoryItem) : ℚ :=
  (goingItems items).foldl (fun sum item => sum + item.volume * item.quantity) 0

/-- Review.tsx line 172: weight total over going items. -/
def reviewTotalWeight (items : List InventoryItem) : ℚ :=
  (goingItems items).foldl (fun sum item => sum + item.weight * item.quantity) 0

/-- Review.tsx line 173: item count over going items. -/
def reviewTotalItems (items : List InventoryItem) : ℚ :=
  (goingItems items).foldl (fun sum item => sum + item.quantity) 0

/-- Written from the spec's words (the refinement target of C1):
`totalItems = Σ quantity` over items whose isGoing is not false. -/
def claimTotalItems (items : List InventoryItem) : ℚ :=
  ((goingItems items).map (fun item => item.quantity)).sum

/-- Written from the spec's words: `totalVolume = (1 + safetyFactor) *
Σ (volume * quantity)` over going items. -/
def claimTotalVolume (items : List InventoryItem) (safetyFactor : ℚ) : ℚ :=
  (1 + safetyFactor) * ((goingItems items).map (fun item => item.volume * item.quantity)).sum

/-- Written from the spec's words: the weight analogue. -/
def claimTotalWeight (items : List InventoryItem) (safetyFactor : ℚ) : ℚ :=
  (1 + safetyFactor) * ((goingItems items).map (fun item => item.weight * item.quantity)).sum

/-- The safety-factor choices offered by the SharedInventory dropdown
(line 550). -/
def safetyFactorOptions : List ℚ := [-(1/10), 0, 1/10, 2/10, 3/10, 4/10]

/-- The safety-factor state of the shared page: the React state and the
persisted session column. -/
structure SharedPageState where
  safetyFactor : ℚ := 2/10
  sessionSafetyFactor : Option ℚ := none

/-- SharedInventory.tsx line 171: the state is loaded from the session
column, defaulting to 0.2. -/
def loadSafetyFactor (stored : Option ℚ) : ℚ := stored.getD (2/10)

/-- SharedInventory.tsx lines 351-367: choosing a factor sets the state
and persists it to the session. -/
def updateSafetyFactor (newSafetyFactor : ℚ) (_st : SharedPageState) : SharedPageState :=
  { safetyFactor := newSafetyFactor, sessionSafetyFactor := some newSafetyFactor }

/-- SharedInventory.tsx line 387: the PDF request carries the page's
current safety factor. -/
def pdfRequestSafetyFactor (st : SharedPageState) : ℚ := st.safetyFactor

/-- The state the shared page mutates: the access level of the share
token, the persisted item collection, and the displayed list. -/
structure SharedInventoryState where
  accessLevel : String := "view"
  dbItems : List InventoryItem := []
  items : List InventoryItem := []
deriving DecidableEq

/-- SharedInventory.tsx line 111: `canEdit = access_level === "edit"`. -/
def stateCanEdit (st : SharedInventoryState) : Bool := st.accessLevel == "edit"

/-- A partial item update (the Partial InventoryItem of the source). -/
structure ItemUpdates where
  name : Option String := none
  quantity : Option ℚ := none
  volume : Option ℚ := none
  weight : Option ℚ := none
  room : Option (Option String) := none
  is_going : Option Bool := none

/-- Merge an update into an item: present fields override. -/
def applyItemUpdates (item : InventoryItem) (u : ItemUpdates) : InventoryItem :=
  { item with
    name := u.name.getD item.name
    quantity := u.quantity.getD item.quantity
    volume := u.volume.getD item.volume
    weight := u.weight.getD item.weight
    room := u.room.getD item.room
    is_going := match u.is_going with
      | some b => some b
      | none => item.is_going }

/-- SharedInventory.tsx lines 193-215: updateItem returns at once
without any write when canEdit is false; otherwise it updates the
matching persisted row and the displayed list. -/
def updateItem (st : SharedInventoryState) (id : String) (updates : ItemUpdates) :
    SharedInventoryState :=
  if !(stateCanEdit st) then st
  else
    { st with
      dbItems := st.dbItems.map (fun item =>
        if item.id == id then applyItemUpdates item updates else item)
      items := st.items.map (fun item =>
        if item.id == id then applyItemUpdates item updates else item) }

/-- SharedInventory.tsx lines 217-234: deleteItem returns at once when
canEdit is false; otherwise it deletes the row everywhere. -/
def deleteItem (st : SharedInventoryState) (id : String) : SharedInventoryState :=
  if !(stateCanEdit st) then st
  else
    { st with
      dbItems := st.dbItems.filter (fun item => !(item.id == id))
      items := st.items.filter (fun item => !(item.id == id)) }

/-- The new-item form state of the shared page. -/
structure NewItemForm where
  name : Option String := none
  quantity : Option ℚ := none
  volume : Option ℚ := none
  weight : Option ℚ := none
  room : Option String := none
  is_going : Option Bool := none

/-- JS `a || b` on a numeric field: zero and undefined are falsy. -/
def jsOrQ (o : Option ℚ) (d : ℚ) : ℚ :=
  match o with
  | some q => if q == 0 then d else q
  | none => d

/-- JS `a || b` on an optional string: empty and undefined are falsy. -/
def jsOrStr (o : Option String) (d : Option String) : Option String :=
  match o with
  | some s => if s == "" then d else s
  | none => d

/-- SharedInventory.tsx lines 236-285: addNewItem checks only that a
name was entered (an empty name is falsy and aborts); it carries NO
canEdit guard, inserts the row into the persisted collection and
appends it to the displayed list. -/
def addNewItem (st : SharedInventoryState) (newItem : NewItemForm)
    (activeAddFormRoom : Option String) (newId : String) : SharedInventoryState :=
  match newItem.name with
  | none => st
  | some name =>
    if name = "" then st
    else
      let item : InventoryItem :=
        { id := newId
          name := name
          quantity := jsOrQ newItem.quantity 1
          volume := jsOrQ newItem.volume 0
          weight := jsOrQ newItem.weight 0
          room := jsOrStr newItem.room activeAddFormRoom
          is_going := some (!(newItem.is_going == some false)) }
      { st with dbItems := st.dbItems ++ [item], items := st.items ++ [item] }

/-- The per-box constants stated by the analyze-inventory system prompt
(lines 71-82): (volume in cu ft, weight in lbs) for small, medium,
large and extra-large boxes. -/
def boxUnitTable : List (ℚ × ℚ) := [(3/2, 15), (3, 25), (9/2, 30), (6, 35)]

/-- The mock inventory of Review.tsx (lines 33-70). -/
def mockItems : List InventoryItem :=
  [ { id := "1", name := "Queen Size Bed", quantity := 1, volume := 442/5, weight := 99,
      room := some "Bedroom", is_going := some true },
    { id := "2", name := "Dining Table", quantity := 1, volume := 127/2, weight := 77,
      room := some "Dining Room", is_going := some true },
    { id := "3", name := "Medium Boxes", quantity := 5, volume := 2, weight := 18,
      room := some "Living Room", is_going := some true },
    { id := "4", name := "Television (55 inch)", quantity := 1, volume := 283/10, weight := 33,
      room := some "Living Room", is_going := some true } ]

/-- The items of the shared-inventory response body, when it is ok. -/
def respItems (r : Response) : Option (List JsonValue) :=
  match r with
  | Response.okJson body => (body.getField "items").bind JsonValue.getArr
  | Response.err _ _ => none

/-- The first item of a response body. -/
def firstRespItem (r : Response) : Option JsonValue :=
  (respItems r).bind List.head?

/-- The item list of the claim C1 example: a going item (vol 2, w 10,
qty 3) and a not-going item (vol 1, w 5, qty 2). -/
def exampleItemsC1 : List InventoryItem :=
  [ { name := "Going item", quantity := 3, volume := 2, weight := 10, is_going := some true },
    { name := "Not going item", quantity := 2, volume := 1, weight := 5, is_going := some false } ]

/-- A concrete model response for C2: a fenced JSON array whose single
box item carries per-unit volume 2 and weight 18, which is none of the
four per-box constants. -/
def respC2 : String :=
  "```json\n[\x7b\"name\": \"Medium Boxes\", \"quantity\": 5, \"volume\": 2, \"weight\": 18, \"room\": \"Living Room\"\x7d]\n```"

/-- The request body of the C2 run. -/
def bodyC2 : RequestBody := { image := some "img", imageNumber := 1 }

/-- A concrete model response for C3: an unfenced JSON array whose item
invents the room name Narnia. -/
def respC3 : String :=
  " [\x7b\"name\": \"Sofa\", \"quantity\": 1, \"volume\": 30, \"weight\": 150, \"room\": \"Narnia\"\x7d] "

/-- The room mapping sent with the C3 run: image 1 shows the Kitchen. -/
def roomMappingsC3 : List (String × List String) := [("image1", ["Kitchen"])]

/-- The request body of the C3 run. -/
def bodyC3 : RequestBody := { image := some "img", imageNumber := 1, roomMappings := roomMappingsC3 }

/-- A concrete per-photo oracle for the loop witnesses: every photo
yields one item. -/
def exCallOk : Nat → List JsonValue → Except String (List JsonValue) :=
  fun n _ => Except.ok [JsonValue.str (itemId n 1)]

/-- A concrete per-photo oracle that fails on photo 2. -/
def exCallFail : Nat → List JsonValue → Except String (List JsonValue) :=
  fun n _ => if n == 2 then Except.error "boom" else Except.ok [JsonValue.str (itemId n 1)]

/-- A one-row item list with quantity 3, separating the two item-count
conventions of C8. -/
def itemsC8 : List InventoryItem :=
  [ { name := "Chairs", quantity := 3, volume := 1, weight := 1 } ]

/-- A shared page state under a view-only token. -/
def stViewC9 : SharedInventoryState := { accessLevel := "view", dbItems := [], items := [] }

/-- A filled-in add form. -/
def newItemFormC9 : NewItemForm := { name := some "Lamp" }

/-! ### Helper lemmas -/

theorem foldl_add_map_sum {α : Type} (f : α → ℚ) :
    ∀ (l : List α) (a : ℚ), l.foldl (fun s x => s + f x) a = a + (l.map f).sum := by
  intro l
  induction l with
  | nil => intro a; simp
  | cons x xs ih =>
    intro a
    rw [List.foldl_cons, ih, List.map_cons, List.sum_cons]
    ring

theorem handleAnalyzeItemLoop_step
    (call : Nat → List JsonValue → Except String (List JsonValue)) (k : Nat) :
    ∃ t, handleAnalyzeItemLoop call (k + 1) = handleAnalyzeItemLoop call k ++ t := by
  cases h : call (k + 1) (handleAnalyzeItemLoop call k) with
  | ok items => exact ⟨items, by simp [handleAnalyzeItemLoop, h]⟩
  | error e => exact ⟨[], by simp [handleAnalyzeItemLoop, h]⟩

theorem handleAnalyzeItemLoop_grows
    (call : Nat → List JsonValue → Except String (List JsonValue)) (k m : Nat) :
    ∃ t, handleAnalyzeItemLoop call (k + m) = handleAnalyzeItemLoop call k ++ t := by
  induction m with
  | zero => exact ⟨[], by simp⟩
  | succ m ih =>
    obtain ⟨t, ht⟩ := ih
    obtain ⟨u, hu⟩ := handleAnalyzeItemLoop_step call (k + m)
    exact ⟨t ++ u, by rw [show k + (m + 1) = (k + m) + 1 from rfl, hu, ht, List.append_assoc]⟩

theorem dropWhile_head_false {α : Type} (p : α → Bool) :
    ∀ (l : List α) (c : α) (t : List α), l.dropWhile p = c :: t → p c = false := by
  intro l
  induction l with
  | nil => intro c t h; simp [List.dropWhile] at h
  | cons a as ih =>
    intro c t h
    cases hpa : p a with
    | true =>
      rw [List.dropWhile_cons, if_pos hpa] at h
      exact ih c t h
    | false =>
      rw [List.dropWhile_cons, if_neg (by simp [hpa])] at h
      cases h
      exact hpa

theorem dropWhile_append_last {p : Char → Bool} {c : Char} (hc : p c = false) :
    ∀ (w : List Char), ∃ pre, (w ++ [c]).dropWhile p = pre ++ [c] := by
  intro w
  induction w with
  | nil => exact ⟨[], by simp [List.dropWhile_cons, hc]⟩
  | cons a w' ih =>
    cases hpa : p a with
    | true =>
      obtain ⟨pre, hpre⟩ := ih
      exact ⟨pre, by simpa [List.dropWhile_cons, hpa] using hpre⟩
    | false => exact ⟨a :: w', by simp [List.dropWhile_cons, hpa]⟩

theorem find?_append_of_right_none {α : Type} {q : α → Bool} {l₂ : List α}
    (hr : l₂.find? q = none) : ∀ l₁ : List α, (l₁ ++ l₂).find? q = l₁.find? q := by
  intro l₁
  induction l₁ with
  | nil => simpa using hr
  | cons a l ih =>
    cases hqa : q a with
    | true => simp [List.find?_cons, hqa]
    | false => simp [List.find?_cons, hqa, ih]

theorem find?_value_of_all {v : JsonValue} :
    ∀ (l : List (String × JsonValue)), (∀ p ∈ l, p.2 = v) →
      ∀ (q : String × JsonValue → Bool) (x : String × JsonValue), x ∈ l → q x = true →
      ((l.find? q).map (fun p => p.2)) = some v := by
  intro l
  induction l with
  | nil =>
    intro _ q x hx
    simp at hx
  | cons a l ih =>
    intro hall q x hx hqx
    cases hqa : q a with
    | true =>
      simp only [List.find?_cons, hqa, Option.map_some]
      exact congrArg some (hall a (List.mem_cons_self a l))
    | false =>
      have hx' : x ∈ l := by
        rcases List.mem_cons.mp hx with rfl | hmem
        · rw [hqx] at hqa; cases hqa
        · exact hmem
      simp only [List.find?_cons, hqa]
      exact ih (fun p hp => hall p (List.mem_cons_of_mem a hp)) q x hx' hqx

theorem consFst_some {c : Char} {r : Option (List Char) × Int} {span : List Char} {d : Int}
    (h : consFst c r = (some span, d)) : ∃ t, span = c :: t := by
  obtain ⟨o, d'⟩ := r
  cases o with
  | none => simp [consFst] at h
  | some l =>
    simp [consFst] at h
    exact ⟨l, h.1.symm⟩

theorem depthScanArray_some_head {c : Char} {rest : List Char} {depth : Int}
    {inString escaped : Bool} {span : List Char} {d : Int}
    (h : depthScanArray (c :: rest) depth inString escaped = (some span, d)) :
    ∃ t, span = c :: t := by
  rw [depthScanArray] at h
  split_ifs at h <;>
    first
      | exact consFst_some h
      | · simp at h
          exact ⟨[], h.1.symm⟩

theorem depthScanObject_some_head {c : Char} {rest : List Char} {depth : Int}
    {inString escaped : Bool} {span : List Char} {d : Int}
    (h : depthScanObject (c :: rest) depth inString escaped = (some span, d)) :
    ∃ t, span = c :: t := by
  rw [depthScanObject] at h
  split_ifs at h <;>
    first
      | exact consFst_some h
      | · simp at h
          exact ⟨[], h.1.symm⟩

theorem arrayMatchFirst_head {b jc : String}
    (h : arrayMatchFirst b = some jc) : ∃ t, jc.data = '[' :: t := by
  unfold arrayMatchFirst at h
  cases hd : b.data.dropWhile (fun c => c != '[') with
  | nil => rw [hd] at h; cases h
  | cons c rest =>
    rw [hd] at h
    have hceq : c = '[' := by
      have hc := dropWhile_head_false _ _ _ _ hd
      simpa using hc
    have h' : (if (rest.any fun d => d == ']') = true then
        some (String.mk (c :: (rest.takeWhile (fun d => d != ']') ++ [']']))) else none) =
        some jc := h
    by_cases hany : (rest.any fun d => d == ']') = true
    · rw [if_pos hany] at h'
      cases h'
      exact ⟨List.takeWhile (fun d => d != ']') rest ++ [']'], by rw [hceq]⟩
    · rw [if_neg hany] at h'
      cases h'

theorem strategy2_head {s jc : String} (h : strategy2Extract s = some jc) :
    ∃ t, jc.data = '[' :: t := by
  unfold strategy2Extract at h
  cases hd : s.data.dropWhile (fun c => c != '[') with
  | nil => rw [hd] at h; cases h
  | cons c rest =>
    rw [hd] at h
    have hceq : c = '[' := by
      have hc := dropWhile_head_false _ _ _ _ hd
      simpa using hc
    have h' : (match depthScanArray (c :: rest) 0 false false with
        | (some span, _) => some (String.mk span)
        | (none, d) => if d == 0 then some (String.mk [c]) else none) = some jc := h
    cases hscan : depthScanArray (c :: rest) 0 false false with
    | mk o dd =>
      cases o with
      | some span =>
        rw [hscan] at h'
        have h'' : some (String.mk span) = some jc := h'
        cases h''
        obtain ⟨t, ht⟩ := depthScanArray_some_head hscan
        exact ⟨t, by rw [ht, hceq]⟩
      | none =>
        rw [hscan] at h'
        have h'' : (if (dd == 0) = true then some (String.mk [c]) else none) = some jc := h'
        by_cases hd0 : (dd == 0) = true
        · rw [if_pos hd0] at h''
          cases h''
          exact ⟨[], by rw [hceq]⟩
        · rw [if_neg hd0] at h''
          cases h''

theorem extract_head {s jc : String} (h : extractJsonArrayContent s = some jc) :
    ∃ t, jc.data = '[' :: t := by
  unfold extractJsonArrayContent at h
  cases hcb : codeBlockCapture s with
  | some blockContent =>
    rw [hcb] at h
    have h' : (match arrayMatchFirst blockContent with
        | some jsonContent => some jsonContent
        | none => strategy2Extract s) = some jc := h
    cases ham : arrayMatchFirst blockContent with
    | some jc' =>
      rw [ham] at h'
      cases h'
      exact arrayMatchFirst_head ham
    | none =>
      rw [ham] at h'
      exact strategy2_head h'
  | none =>
    rw [hcb] at h
    exact strategy2_head h

theorem jsTrim_head {s : String} {t : List Char} (h : s.data = '[' :: t) :
    ∃ t', (jsTrim s).data = '[' :: t' := by
  have h1 : isJsonWs '[' = false := rfl
  show ∃ t', jsTrimList s.data = '[' :: t'
  rw [h]
  unfold jsTrimList
  rw [List.dropWhile_cons, if_neg (by simp [h1]), List.reverse_cons]
  obtain ⟨pre, hpre⟩ := dropWhile_append_last h1 t.reverse
  rw [hpre, List.reverse_append]
  exact ⟨pre.reverse, by simp⟩

theorem parseJsonValue_bracket_arr {fuel : Nat} {t : List Char} {v : JsonValue} {r : List Char}
    (h : parseJsonValue fuel ('[' :: t) = some (v, r)) : ∃ xs, v = JsonValue.arr xs := by
  cases fuel with
  | zero => rw [parseJsonValue] at h; cases h
  | succ f =>
    rw [parseJsonValue] at h
    have hdw : ('[' :: t).dropWhile isJsonWs = '[' :: t := by
      rw [List.dropWhile_cons, if_neg (by decide)]
    rw [hdw] at h
    have h' : (parseJsonArrayBody f t).map (fun p => (JsonValue.arr p.1, p.2)) = some (v, r) := h
    cases hb : parseJsonArrayBody f t with
    | none => rw [hb] at h'; cases h'
    | some p =>
      rw [hb] at h'
      have h'' : (some (JsonValue.arr p.1, p.2) : Option (JsonValue × List Char)) = some (v, r) := h'
      cases h''
      exact ⟨p.1, rfl⟩

theorem jsonParse_arr {s : String} {v : JsonValue} {t : List Char}
    (hs : s.data = '[' :: t) (hp : jsonParse s = some v) : ∃ xs, v = JsonValue.arr xs := by
  unfold jsonParse at hp
  cases hpp : parseJsonValue (2 * (s.data.length + 1)) s.data with
  | none => rw [hpp] at hp; cases hp
  | some pr =>
    obtain ⟨v', rest⟩ := pr
    rw [hpp] at hp
    have hp' : (if (rest.dropWhile isJsonWs).isEmpty = true then some v' else none) = some v := hp
    by_cases hrest : (rest.dropWhile isJsonWs).isEmpty = true
    · rw [if_pos hrest] at hp'
      cases hp'
      rw [hs] at hpp
      exact parseJsonValue_bracket_arr hpp
    · rw [if_neg hrest] at hp'
      cases hp'

theorem parseInventoryItems_arr (content : String) :
    ∃ xs, parseInventoryItems content = JsonValue.arr xs := by
  cases he : extractJsonArrayContent content with
  | none => exact ⟨[], by unfold parseInventoryItems; rw [he]⟩
  | some jc =>
    cases hp : jsonParse (jsTrim jc) with
    | none =>
      refine ⟨[], ?_⟩
      unfold parseInventoryItems
      rw [he]
      show (match jsonParse (jsTrim jc) with
            | none => JsonValue.arr []
            | some w => w) = JsonValue.arr []
      rw [hp]
    | some v =>
      obtain ⟨t, ht⟩ := extract_head he
      obtain ⟨t', ht'⟩ := jsTrim_head ht
      obtain ⟨xs, hxs⟩ := jsonParse_arr ht' hp
      refine ⟨xs, ?_⟩
      unfold parseInventoryItems
      rw [he]
      show (match jsonParse (jsTrim jc) with
            | none => JsonValue.arr []
            | some w => w) = JsonValue.arr xs
      rw [hp, hxs]

theorem getField_base_skip {key : String} (h1 : key ≠ "id") (h2 : key ≠ "found_in_image")
    (a b : JsonValue) :
    ([("id", a), ("found_in_image", b)] : List (String × JsonValue)).reverse.find?
      (fun p => p.1 == key) = none := by
  have hid : (("id" : String) == key) = false := beq_eq_false_iff_ne.mpr (Ne.symm h1)
  have hfi : (("found_in_image" : String) == key) = false := beq_eq_false_iff_ne.mpr (Ne.symm h2)
  simp [List.find?, hid, hfi]

theorem getField_base_none {key : String} (h1 : key ≠ "id") (h2 : key ≠ "found_in_image")
    (a b : JsonValue) :
    (JsonValue.obj [("id", a), ("found_in_image", b)]).getField key = none := by
  show (([("id", a), ("found_in_image", b)] : List (String × JsonValue)).reverse.find?
      (fun p => p.1 == key)).map (fun p => p.2) = none
  rw [getField_base_skip h1 h2]
  rfl

theorem itemWithId_getField {key : String} (h1 : key ≠ "id") (h2 : key ≠ "found_in_image")
    (imageNumber index : Nat) (item : JsonValue) :
    (itemWithId imageNumber index item).getField key = item.getField key := by
  cases item with
  | obj fields =>
    show ((([("id", JsonValue.str (itemId imageNumber index)),
        ("found_in_image", JsonValue.num (imageNumber : ℚ))] ++ fields).reverse.find?
          (fun p => p.1 == key)).map (fun p => p.2)) =
      ((fields.reverse.find? (fun p => p.1 == key)).map (fun p => p.2))
    rw [List.reverse_append, find?_append_of_right_none (getField_base_skip h1 h2 _ _)]
  | null => exact getField_base_none h1 h2 _ _
  | bool bb => exact getField_base_none h1 h2 _ _
  | num q => exact getField_base_none h1 h2 _ _
  | str ss => exact getField_base_none h1 h2 _ _
  | arr xs => exact getField_base_none h1 h2 _ _

theorem itemsWithIdsFrom_map_getField {key : String} (h1 : key ≠ "id")
    (h2 : key ≠ "found_in_image") (imageNumber : Nat) :
    ∀ (xs : List JsonValue) (index : Nat),
      (itemsWithIdsFrom imageNumber index xs).map (fun v => v.getField key) =
        xs.map (fun v => v.getField key) := by
  intro xs
  induction xs with
  | nil => intro index; rfl
  | cons x rest ih =>
    intro index
    rw [itemsWithIdsFrom, List.map_cons, List.map_cons, ih,
      itemWithId_getField h1 h2]

theorem itemsWithIds_map_getField {key : String} (h1 : key ≠ "id")
    (h2 : key ≠ "found_in_image") (imageNumber : Nat) (xs : List JsonValue) :
    (itemsWithIds imageNumber xs).map (fun v => v.getField key) =
      xs.map (fun v => v.getField key) :=
  itemsWithIdsFrom_map_getField h1 h2 imageNumber xs 1

theorem itemsWithIdsFrom_length (imageNumber : Nat) :
    ∀ (xs : List JsonValue) (index : Nat),
      (itemsWithIdsFrom imageNumber index xs).length = xs.length := by
  intro xs
  induction xs with
  | nil => intro index; rfl
  | cons x rest ih =>
    intro index
    rw [itemsWithIdsFrom, List.length_cons, List.length_cons, ih]

/-! ### Claim theorems -/

/-- C1 (counterexample): on the claim's own input and safety factor
0.2, the totals computed by SharedInventory.tsx are not the claimed
3 / 7.2 / 36 — the not-going item is NOT excluded. -/
theorem spec_c1_counterexample :
    sharedTotalItems exampleItemsC1 ≠ 3 ∧
    sharedTotalVolume exampleItemsC1 (2/10) ≠ 36/5 ∧
    sharedTotalWeight exampleItemsC1 (2/10) ≠ 36 := by
  exact ⟨by with_unfolding_all decide, by with_unfolding_all decide, by with_unfolding_all decide⟩

/-- C1 (amended): the shared-page totals sum over EVERY item,
regardless of the isGoing field: totalItems = Σ quantity,
totalVolume = (1 + sf)·Σ (volume·quantity), totalWeight likewise; on
the claim's input they are 5, 9.6 and 48.  The spec's going-items
filter exists only in Review.tsx, whose totals carry no safety factor
(3, 6, 30 on the same input); the spec's own formula yields the claimed
3, 7.2, 36. -/
theorem spec_c1_amended :
    (∀ (items : List InventoryItem) (sf : ℚ),
      sharedTotalVolume items sf = (1 + sf) * ((items.map (fun item => item.volume * item.quantity)).sum)) ∧
    (∀ (items : List InventoryItem) (sf : ℚ),
      sharedTotalWeight items sf = (1 + sf) * ((items.map (fun item => item.weight * item.quantity)).sum)) ∧
    (∀ items : List InventoryItem,
      sharedTotalItems items = (items.map (fun item => item.quantity)).sum) ∧
    sharedTotalItems exampleItemsC1 = 5 ∧
    sharedTotalVolume exampleItemsC1 (2/10) = 48/5 ∧
    sharedTotalWeight exampleItemsC1 (2/10) = 48 ∧
    reviewTotalItems exampleItemsC1 = 3 ∧
    reviewTotalVolume exampleItemsC1 = 6 ∧
    reviewTotalWeight exampleItemsC1 = 30 ∧
    claimTotalItems exampleItemsC1 = 3 ∧
    claimTotalVolume exampleItemsC1 (2/10) = 36/5 ∧
    claimTotalWeight exampleItemsC1 (2/10) = 36 := by
  refine ⟨?_, ?_, ?_, by with_unfolding_all decide, by with_unfolding_all decide,
    by with_unfolding_all decide, by with_unfolding_all decide, by with_unfolding_all decide,
    by with_unfolding_all decide, by with_unfolding_all decide, by with_unfolding_all decide,
    by with_unfolding_all decide⟩
  · intro items sf
    unfold sharedTotalVolume applyLoadingSafetyFactor
    rw [foldl_add_map_sum]
    ring
  · intro items sf
    unfold sharedTotalWeight applyLoadingSafetyFactor
    rw [foldl_add_map_sum]
    ring
  · intro items
    unfold sharedTotalItems
    rw [foldl_add_map_sum]
    ring

/-- C2 (counterexample): a model response whose "Medium Boxes" item
carries per-unit volume 2 and weight 18 — none of the four per-box
constants — flows through the item-analysis pipeline unchanged; the
repo's own mockItems contain the same out-of-table box entry. -/
theorem spec_c2_counterexample :
    ((firstRespItem (serveAnalyze bodyC2 (VisionResult.ok respC2))).bind
        (fun v => v.getField "name") = some (JsonValue.str "Medium Boxes")) ∧
    ((firstRespItem (serveAnalyze bodyC2 (VisionResult.ok respC2))).bind
        (fun v => v.getField "volume") = some (JsonValue.num 2)) ∧
    ((firstRespItem (serveAnalyze bodyC2 (VisionResult.ok respC2))).bind
        (fun v => v.getField "weight") = some (JsonValue.num 18)) ∧
    (boxUnitTable.all (fun p => !(p.1 == 2 && p.2 == 18)) = true) ∧
    ((mockItems.map (fun item => (item.name, item.volume, item.weight))).get? 2 =
      some ("Medium Boxes", 2, 18)) := by
  refine ⟨by with_unfolding_all rfl, by with_unfolding_all rfl, by with_unfolding_all rfl,
    by with_unfolding_all decide, by with_unfolding_all rfl⟩

/-- C2 (amended): the four box constants appear only in the prompt sent
to the external model; the pipeline does not validate or normalize
them — name, quantity, volume and weight of every parsed item are
passed through verbatim. -/
theorem spec_c2_amended (imageNumber : Nat) (xs : List JsonValue) :
    ((itemsWithIds imageNumber xs).map (fun v => v.getField "name") =
        xs.map (fun v => v.getField "name")) ∧
    ((itemsWithIds imageNumber xs).map (fun v => v.getField "quantity") =
        xs.map (fun v => v.getField "quantity")) ∧
    ((itemsWithIds imageNumber xs).map (fun v => v.getField "volume") =
        xs.map (fun v => v.getField "volume")) ∧
    ((itemsWithIds imageNumber xs).map (fun v => v.getField "weight") =
        xs.map (fun v => v.getField "weight")) :=
  ⟨itemsWithIds_map_getField (by decide) (by decide) imageNumber xs,
   itemsWithIds_map_getField (by decide) (by decide) imageNumber xs,
   itemsWithIds_map_getField (by decide) (by decide) imageNumber xs,
   itemsWithIds_map_getField (by decide) (by decide) imageNumber xs⟩

/-- C3 (counterexample): with image 1 mapped to the Kitchen, a model
response assigning the invented room "Narnia" passes through the
item-analysis pipeline unchecked: the produced item carries a room
outside imageRoomMapping[1]. -/
theorem spec_c3_counterexample :
    currentRooms roomMappingsC3 1 = ["Kitchen"] ∧
    ((firstRespItem (serveAnalyze bodyC3 (VisionResult.ok respC3))).bind
        (fun v => v.getField "room") = some (JsonValue.str "Narnia")) ∧
    ¬ ("Narnia" ∈ currentRooms roomMappingsC3 1) := by
  refine ⟨rfl, by with_unfolding_all rfl, by decide⟩

/-- C3 (amended): the room-assignment rule is prompt text only; the
pipeline passes each item's room through verbatim, with no membership
check against the image's mapped rooms or roomsDetected, and drops no
item. -/
theorem spec_c3_amended (imageNumber : Nat) (xs : List JsonValue) :
    ((itemsWithIds imageNumber xs).map (fun v => v.getField "room") =
        xs.map (fun v => v.getField "room")) ∧
    (itemsWithIds imageNumber xs).length = xs.length :=
  ⟨itemsWithIds_map_getField (by decide) (by decide) imageNumber xs,
   itemsWithIdsFrom_length imageNumber xs 1⟩

/-- C4 (counterexample): when the vision call itself fails for a
3-photo batch, room detection does NOT fall back — the request becomes
a 500 error response carrying the thrown message, and no roomsDetected
list is produced. -/
theorem spec_c4_counterexample :
    handleRoomDetection (some ["a", "b", "c"]) (VisionResult.apiError 429 "rate limited") =
      Response.err 500 "OpenAI API error: 429 - rate limited" := rfl

/-- C4 (amended): only for a malformed/unparseable payload obtained
from a SUCCESSFUL vision call does the pipeline avoid raising: it then
installs the fallback mapping, whose roomsDetected is the fixed
non-empty four-room list and which assigns "Living Room" to every one
of the N photos. -/
theorem spec_c4_amended (images : List String) (content : String)
    (h1 : images ≠ []) (h2 : roomParsedPayload content = none) :
    handleRoomDetection (some images) (VisionResult.ok content) =
      Response.okJson (fallbackRoomMapping images.length) ∧
    (fallbackRoomMapping images.length).getField "rooms_detected" =
      some (JsonValue.arr (roomsDetectedFallback.map JsonValue.str)) ∧
    roomsDetectedFallback ≠ [] ∧
    (∀ i, i < images.length →
      ((fallbackRoomMapping images.length).getField "image_room_mapping").bind
        (fun m => m.getField (imageKey (i + 1)))
        = some (JsonValue.arr [JsonValue.str "Living Room"])) := by
  refine ⟨?_, rfl, by decide, ?_⟩
  · have h0 : ¬ (images.length = 0) := by
      simpa [List.length_eq_zero] using h1
    have hred : handleRoomDetection (some images) (VisionResult.ok content) =
        if images.length = 0 then Response.err 500 "No images provided for room detection"
        else
          match roomParsedPayload content with
          | none => Response.okJson (fallbackRoomMapping images.length)
          | some roomMapping => Response.okJson roomMapping := rfl
    rw [hred, if_neg h0, h2]
  · intro i hi
    have hmap : (fallbackRoomMapping images.length).getField "image_room_mapping" =
        some (JsonValue.obj ((List.range images.length).map
          (fun j => (imageKey (j + 1), JsonValue.arr [JsonValue.str "Living Room"])))) := rfl
    rw [hmap, Option.some_bind]
    show ((((List.range images.length).map
        (fun j => (imageKey (j + 1), JsonValue.arr [JsonValue.str "Living Room"]))).reverse.find?
          (fun p => p.1 == imageKey (i + 1))).map (fun p => p.2)) =
      some (JsonValue.arr [JsonValue.str "Living Room"])
    refine find?_value_of_all _ ?_ _
      ((imageKey (i + 1), JsonValue.arr [JsonValue.str "Living Room"])) ?_ ?_
    · intro p hp
      obtain ⟨j, _, rfl⟩ := List.mem_map.mp (List.mem_reverse.mp hp)
      rfl
    · exact List.mem_reverse.mpr (List.mem_map.mpr ⟨i, List.mem_range.mpr hi, rfl⟩)
    · exact beq_self_eq_true _

/-- C4 (witness): a 3-photo batch whose room-detection content is
unparseable yields the fallback mapping. -/
theorem spec_c4_witness :
    handleRoomDetection (some ["a", "b", "c"]) (VisionResult.ok "oops, no structure here") =
      Response.okJson (fallbackRoomMapping 3) :=
  (spec_c4_amended ["a", "b", "c"] "oops, no structure here" (by decide) rfl).1

/-- C5: for every text content returned by the vision capability in
item-extraction mode, the parse stage yields a 200 response carrying
an id-tagged items array — never an error — and when the extraction
finds no JSON array at all, that array is empty. -/
theorem spec_c5 (content : String) (imageNumber : Nat) :
    (∃ inventoryItems, itemAnalysis imageNumber (VisionResult.ok content) =
        Response.okJson (itemAnalysisOkBody imageNumber (itemsWithIds imageNumber inventoryItems))) ∧
    (extractJsonArrayContent content = none →
        itemAnalysis imageNumber (VisionResult.ok content) =
        Response.okJson (itemAnalysisOkBody imageNumber [])) := by
  constructor
  · obtain ⟨xs, hxs⟩ := parseInventoryItems_arr content
    refine ⟨xs, ?_⟩
    show (match parseInventoryItems content with
          | JsonValue.arr inventoryItems =>
            Response.okJson (itemAnalysisOkBody imageNumber (itemsWithIds imageNumber inventoryItems))
          | _ => Response.err 500 "AI response is not a valid array")
        = Response.okJson (itemAnalysisOkBody imageNumber (itemsWithIds imageNumber xs))
    rw [hxs]
  · intro he
    have hp : parseInventoryItems content = JsonValue.arr [] := by
      unfold parseInventoryItems
      rw [he]
    show (match parseInventoryItems content with
          | JsonValue.arr inventoryItems =>
            Response.okJson (itemAnalysisOkBody imageNumber (itemsWithIds imageNumber inventoryItems))
          | _ => Response.err 500 "AI response is not a valid array")
        = Response.okJson (itemAnalysisOkBody imageNumber [])
    rw [hp]
    rfl

/-- C5 (witness): a plain-prose refusal with no JSON array yields the
empty items array rather than an error. -/
theorem spec_c5_witness :
    itemAnalysis 4 (VisionResult.ok "I could not find any items in this photo.") =
      Response.okJson (itemAnalysisOkBody 4 []) :=
  (spec_c5 "I could not find any items in this photo." 4).2 rfl

/-- C6: the aggregation ledger only grows: for every k and m, the item
list after processing photos 1..k+m extends the list after photos 1..k
(so it is a superset under any identity — in particular name+room —
and the ledger passed to the extraction step for photo k+1, which is
by construction the list after 1..k, contains every item accepted from
photos 1..k); the ledger never shrinks mid-run. -/
theorem spec_c6 (call : Nat → List JsonValue → Except String (List JsonValue)) (k m : Nat) :
    ∃ newItems, handleAnalyzeItemLoop call (k + m) = handleAnalyzeItemLoop call k ++ newItems :=
  handleAnalyzeItemLoop_grows call k m

/-- C7: if the extraction call for photo k+1 fails, that photo
contributes zero items (the ledger is unchanged) and processing
continues: every later ledger still extends the one accumulated from
the other photos. -/
theorem spec_c7 (call : Nat → List JsonValue → Except String (List JsonValue)) (k : Nat)
    (e : String) (h : call (k + 1) (handleAnalyzeItemLoop call k) = Except.error e) :
    handleAnalyzeItemLoop call (k + 1) = handleAnalyzeItemLoop call k ∧
    ∀ m : Nat, ∃ laterItems,
      handleAnalyzeItemLoop call (k + 1 + m) = handleAnalyzeItemLoop call k ++ laterItems := by
  have hstep : handleAnalyzeItemLoop call (k + 1) = handleAnalyzeItemLoop call k := by
    simp [handleAnalyzeItemLoop, h]
  refine ⟨hstep, fun m => ?_⟩
  obtain ⟨t, ht⟩ := handleAnalyzeItemLoop_grows call (k + 1) m
  exact ⟨t, by rw [ht, hstep]⟩

/-- C7 (witness): with an oracle failing on photo 2, the ledger after
photo 2 equals the ledger after photo 1. -/
theorem spec_c7_witness :
    handleAnalyzeItemLoop exCallFail 2 = handleAnalyzeItemLoop exCallFail 1 :=
  (spec_c7 exCallFail 1 "boom" rfl).1

/-- C8 (counterexample): for a one-row list of quantity 3, the
on-screen item count (sum of quantities) and the report's item count
(number of rows) disagree: 3 versus 1. -/
theorem spec_c8_counterexample :
    sharedTotalItems itemsC8 = 3 ∧
    pdfTotalItems itemsC8 = 1 ∧
    ¬ ((pdfTotalItems itemsC8 : ℚ) = sharedTotalItems itemsC8) := by
  refine ⟨by with_unfolding_all decide, rfl, by with_unfolding_all decide⟩

/-- C8 (amended): the dropdown offers exactly the six factors −0.1..0.4;
choosing one stores it on the session and the same state value is sent
with the PDF request; the volume and weight totals of screen and report
agree for every item list and factor; but the item-count totals differ
in kind — Σ quantity on screen versus the row count in the report. -/
theorem spec_c8_amended :
    safetyFactorOptions = [-(1/10), 0, 1/10, 2/10, 3/10, 4/10] ∧
    (∀ (items : List InventoryItem) (sf : ℚ),
      pdfTotalVolume items sf = sharedTotalVolume items sf ∧
      pdfTotalWeight items sf = sharedTotalWeight items sf) ∧
    (∀ (f : ℚ) (st : SharedPageState),
      (updateSafetyFactor f st).sessionSafetyFactor = some f ∧
      pdfRequestSafetyFactor (updateSafetyFactor f st) = f) ∧
    (∀ stored : Option ℚ, loadSafetyFactor stored = stored.getD (2/10)) ∧
    (∀ items : List InventoryItem,
      sharedTotalItems items = (items.map (fun item => item.quantity)).sum ∧
      pdfTotalItems items = items.length) := by
  refine ⟨rfl, fun items sf => ⟨rfl, rfl⟩, fun f st => ⟨rfl, rfl⟩, fun stored => rfl,
    fun items => ⟨?_, rfl⟩⟩
  unfold sharedTotalItems
  rw [foldl_add_map_sum]
  ring

/-- C9 (counterexample): under a view-only token, the add-item entry
point still writes: invoking addNewItem with a named item changes both
the persisted collection and the displayed list (only the surrounding
form is hidden by the UI when editing is not allowed). -/
theorem spec_c9_counterexample :
    stateCanEdit stViewC9 = false ∧
    (addNewItem stViewC9 newItemFormC9 (some "Living Room") "new-1").items ≠ stViewC9.items ∧
    (addNewItem stViewC9 newItemFormC9 (some "Living Room") "new-1").dbItems ≠ stViewC9.dbItems := by
  refine ⟨rfl, by with_unfolding_all decide, by with_unfolding_all decide⟩

/-- C9 (amended): under a view-only token the update and delete entry
points return without performing any write — persisted collection and
displayed list are unchanged; the add entry point carries no such
guard. -/
theorem spec_c9_amended (st : SharedInventoryState) (id : String) (updates : ItemUpdates)
    (h : stateCanEdit st = false) :
    updateItem st id updates = st ∧ deleteItem st id = st := by
  constructor
  · unfold updateItem
    rw [h]
    rfl
  · unfold deleteItem
    rw [h]
    rfl

/-- C9 (witness): a concrete view-only state is untouched by update and
delete. -/
theorem spec_c9_witness :
    updateItem stViewC9 "1" ({ quantity := some 7 } : ItemUpdates) = stViewC9 ∧
    deleteItem stViewC9 "1" = stViewC9 :=
  spec_c9_amended stViewC9 "1" ({ quantity := some 7 } : ItemUpdates) rfl

/-- C10: a room-detection request with a missing or empty images array
returns the HTTP 500 error response with the thrown message, for every
vision outcome; and the fallback mapping can only arise from a
successful vision call — a failed or malformed call never yields a 200
response. -/
theorem spec_c10 :
    (∀ vision, serveAnalyze ({ mode := "room-detection" } : RequestBody) vision =
        Response.err 500 "No images provided for room detection") ∧
    (∀ vision, serveAnalyze ({ mode := "room-detection", images := some [] } : RequestBody) vision =
        Response.err 500 "No images provided for room detection") ∧
    (∀ (imgs : List String) (status : Nat) (body : String) (v : JsonValue),
      handleRoomDetection (some imgs) (VisionResult.apiError status body) ≠ Response.okJson v) ∧
    (∀ (imgs : List String) (v : JsonValue),
      handleRoomDetection (some imgs) VisionResult.badShape ≠ Response.okJson v) := by
  refine ⟨fun vision => rfl, fun vision => rfl, ?_, ?_⟩
  · intro imgs status body v h
    have h' : (if imgs.length = 0 then Response.err 500 "No images provided for room detection"
        else Response.err 500 (s!"OpenAI API error: {status} - {body}")) = Response.okJson v := h
    by_cases h0 : imgs.length = 0
    · rw [if_pos h0] at h'
      cases h'
    · rw [if_neg h0] at h'
      cases h'
  · intro imgs v h
    have h' : (if imgs.length = 0 then Response.err 500 "No images provided for room detection"
        else Response.err 500 "Invalid response from OpenAI API") = Response.okJson v := h
    by_cases h0 : imgs.length = 0
    · rw [if_pos h0] at h'
      cases h'
    · rw [if_neg h0] at h'
      cases h'

end MoveMate

